import Mathlib

/- Shallow embedding of src/ticket_monitor.py.

   Text is modelled as lists of Unicode code points (Str := List Nat);
   Python str.strip, str.lower (ASCII range) and the `in` substring test
   are given executable models below.  Instants are integers (seconds
   since the epoch), so timedelta(minutes=1) is 60.  External effects
   (the Freshdesk GET, the OpenAI chat call, the SMTP send) are
   parameters of an environment record; the observable behaviour of one
   tick is an ordered event trace together with an aborted flag that
   models an exception escaping check_recent_tickets. -/

abbrev Str := List Nat

/-- Code points of a string literal. -/
def s2c (s : String) : Str := s.toList.map Char.toNat

/-- Whitespace removed by Python str.strip: space, tab, LF, CR, VT, FF. -/
def pyIsSpace (c : Nat) : Bool :=
  decide (c = 32 ∨ c = 9 ∨ c = 10 ∨ c = 13 ∨ c = 11 ∨ c = 12)

/-- Python str.strip: drop leading and trailing whitespace. -/
def stripChars (l : Str) : Str :=
  ((l.dropWhile pyIsSpace).reverse.dropWhile pyIsSpace).reverse

/-- Python str.lower on the ASCII range. -/
def lowerChar (c : Nat) : Nat := if 65 ≤ c ∧ c ≤ 90 then c + 32 else c

def lowerStr (l : Str) : Str := l.map lowerChar

/-- Does the second list start with the first? -/
def startsWithS : Str → Str → Bool
  | [], _ => true
  | _ :: _, [] => false
  | a :: as, b :: bs => a == b && startsWithS as bs

/-- Python substring test: needle occurs somewhere in the haystack. -/
def hasSub (needle : Str) : Str → Bool
  | [] => needle.isEmpty
  | c :: rest => startsWithS needle (c :: rest) || hasSub needle rest

def strTrue : Str := s2c ("true")

/-- One ticket as read from the Freshdesk JSON.  created_at holds the
    instant its ISO-8601 timestamp denotes, or none when
    datetime.fromisoformat would raise on it (or the key is missing). -/
structure Ticket where
  id : Int
  created_at : Option Int
  responder_id : Option Int
  subject : Str
  description : Str
deriving DecidableEq

structure HttpResponse where
  status : Nat
  body : List Ticket
deriving DecidableEq

/-- External world for one tick: the outcome of the Freshdesk GET
    (error = transport exception), the clock, the chat-completion call
    (error = any exception while calling or reading the response), the
    SMTP outcome, and the configured domain. -/
structure Env where
  fetchResp : Except Unit HttpResponse
  now : Int
  oracle : Str → Except Unit Str
  sendOk : Bool
  domain : Str

inductive LogEvent where
  | fetchError (status : Nat)
  | fetchExn
  | gptError
  | emailSent (url : Str)
  | emailFailure
  | processed (id : Str) (urgent : Bool)
deriving DecidableEq

/-- Observable steps of a tick, in program order. -/
inductive Event where
  | mark (id : Str)
  | classify (text : Str)
  | notify (subject body url : Str)
  | log (e : LogEvent)
deriving DecidableEq

/-- fetch_recent_tickets: status 200 yields the JSON body; any other
    status or a transport exception is logged and yields the empty
    list. -/
def fetch_recent_tickets (env : Env) : List Ticket × List Event :=
  match env.fetchResp with
  | Except.ok r =>
    if r.status = 200 then (r.body, [])
    else ([], [Event.log (LogEvent.fetchError r.status)])
  | Except.error _ => ([], [Event.log LogEvent.fetchExn])

/-- The fixed instructional prompt wrapped around the ticket text. -/
def prompt (text : Str) : Str :=
  s2c ("You are an assistant that classifies whether a customer support ticket is urgent.\nReply with only `true` if the message is urgent (e.g. broken, down, critical, high priority), or `false` otherwise. Understand the tone of the customer to identify whether it is urgent or not.\n\nTicket message:\n")
    ++ text ++ s2c ("\n\nIs this urgent?")

/-- is_urgent: ask the model, strip and lower-case the reply, and test
    whether it contains "true"; any exception is caught, logged and
    mapped to false. -/
def is_urgent (oracle : Str → Except Unit Str) (text : Str) : Bool × List Event :=
  match oracle (prompt text) with
  | Except.ok content => (hasSub strTrue (lowerStr (stripChars content)), [])
  | Except.error _ => (false, [Event.log LogEvent.gptError])

/-- send_alert_email: the notify event records the invocation with its
    arguments; the SMTP attempt follows, its failure caught and
    logged. -/
def send_alert_email (sendOk : Bool) (subject body ticket_url : Str) : List Event :=
  Event.notify subject body ticket_url ::
    (if sendOk then [Event.log (LogEvent.emailSent ticket_url)]
     else [Event.log LogEvent.emailFailure])

/-- read_processed_ids: the stripped lines of the file, as a set. -/
def read_processed_ids (file : List Str) : Finset Str :=
  (file.map stripChars).toFinset

/-- mark_processed: append the identifier as a new line of the file. -/
def mark_processed (ticket_id : Str) (file : List Str) : List Str :=
  file ++ [ticket_id]

/-- f-string subject-space-description, stripped. -/
def fullTextOf (t : Ticket) : Str :=
  stripChars (t.subject ++ [32] ++ t.description)

/-- The guarded evaluation of one surviving ticket: classify, log the
    outcome, and alert when urgent (with the or-defaults on empty
    subject/description). -/
def evalTicket (env : Env) (tid subject description ticket_url full_text : Str) :
    List Event :=
  let r := is_urgent env.oracle full_text
  Event.classify full_text ::
    (r.2 ++ Event.log (LogEvent.processed tid r.1) ::
      (if r.1 then
        send_alert_email env.sendOk
          (if subject = [] then s2c ("No Subject") else subject)
          (if description = [] then s2c ("No Description") else description)
          ticket_url
       else []))

/-- One iteration of the for-loop.  none models the uncaught exception
    raised by datetime.fromisoformat on an unparsable timestamp; some []
    is a skipped ticket; otherwise the ticket is marked and evaluated. -/
def processTicket (env : Env) (pids : Finset Str) (cutoff : Int) (t : Ticket) :
    Option (List Event) :=
  let tid := s2c (toString t.id)
  match t.created_at with
  | none => none
  | some created =>
    if tid ∈ pids then some []
    else if created < cutoff then some []
    else if t.responder_id.isSome then some []
    else
      some (Event.mark tid ::
        evalTicket env tid t.subject t.description
          (s2c ("https://") ++ env.domain ++ s2c ("/a/tickets/") ++ tid)
          (fullTextOf t))

/-- The whole loop; the Bool is true when an uncaught exception aborted
    it, in which case later tickets produce no events at all. -/
def processAll (env : Env) (pids : Finset Str) (cutoff : Int) :
    List Ticket → List Event × Bool
  | [] => ([], false)
  | t :: ts =>
    match processTicket env pids cutoff t with
    | none => ([], true)
    | some evs =>
      let r := processAll env pids cutoff ts
      (evs ++ r.1, r.2)

structure TickOutcome where
  events : List Event
  aborted : Bool
deriving DecidableEq

/-- check_recent_tickets: one tick.  An empty (or failed) fetch returns
    early; otherwise the processed set is read once, the cutoff computed
    once, and the batch traversed. -/
def check_recent_tickets (env : Env) (file : List Str) : TickOutcome :=
  let fr := fetch_recent_tickets env
  if fr.1.isEmpty then ⟨fr.2, false⟩
  else
    let pids := read_processed_ids file
    let cutoff := env.now - 60
    let r := processAll env pids cutoff fr.1
    ⟨fr.2 ++ r.1, r.2⟩

def fetchedTickets (env : Env) : List Ticket := (fetch_recent_tickets env).1

def marksOf (evs : List Event) : List Str :=
  evs.filterMap fun e => match e with
    | Event.mark i => some i
    | _ => none

def classifiedOf (evs : List Event) : List Str :=
  evs.filterMap fun e => match e with
    | Event.classify text => some text
    | _ => none

def notificationsOf (evs : List Event) : List (Str × Str × Str) :=
  evs.filterMap fun e => match e with
    | Event.notify s b u => some (s, b, u)
    | _ => none

/-- The processed-tickets file after the tick: each mark event performs
    mark_processed, in order. -/
def fileAfter (env : Env) (file : List Str) : List Str :=
  (marksOf (check_recent_tickets env file).events).foldl
    (fun f i => mark_processed i f) file

/-- n further calls of mark_processed with the same identifier. -/
def markTimes (ticket_id : Str) : Nat → List Str → List Str
  | 0, f => f
  | n + 1, f => markTimes ticket_id n (mark_processed ticket_id f)

/-- An environment whose fetch succeeds with status 200 and the given
    body. -/
def mkEnv (body : List Ticket) (now : Int) (oracle : Str → Except Unit Str)
    (sendOk : Bool) (domain : Str) : Env :=
  ⟨Except.ok ⟨200, body⟩, now, oracle, sendOk, domain⟩

/-- A fresh, unassigned, unseen ticket. -/
def sampleTicket : Ticket := ⟨1, some 0, none, s2c ("A"), s2c ("B")⟩

/-- A tick in which both the classification call and the SMTP send
    raise. -/
def failEnv : Env :=
  ⟨Except.ok ⟨200, [sampleTicket]⟩, 0, fun _ => Except.error (), false, []⟩

/-- The end-to-end scenario ticket of the spec. -/
def ticketC9 : Ticket := ⟨1, some 0, none, s2c ("Site down"), s2c ("prod is down")⟩

/-- The end-to-end scenario: one fresh unassigned ticket and a
    classifier stub replying "true". -/
def envC9 : Env :=
  ⟨Except.ok ⟨200, [ticketC9]⟩, 0, fun _ => Except.ok (s2c ("true")), true,
    s2c ("example.com")⟩

def eligibleTicket : Ticket := ⟨5, some 0, none, s2c ("Hi"), s2c ("all good")⟩

def eligibleEnv : Env :=
  ⟨Except.ok ⟨200, [eligibleTicket]⟩, 0, fun _ => Except.ok (s2c ("false")), true, []⟩

lemma bool_ext {a b : Bool} (h : a = true ↔ b = true) : a = b := by
  cases a <;> cases b <;> simp_all

lemma startsWithS_iff (n : Str) : ∀ l, startsWithS n l = true ↔ ∃ s, l = n ++ s := by
  induction n with
  | nil => intro l; simp [startsWithS]
  | cons a as ih =>
    intro l
    cases l with
    | nil => simp [startsWithS]
    | cons b bs =>
      simp only [startsWithS, Bool.and_eq_true, beq_iff_eq, ih bs, List.cons_append,
        List.cons.injEq]
      constructor
      · rintro ⟨rfl, s, rfl⟩; exact ⟨s, rfl, rfl⟩
      · rintro ⟨s, rfl, rfl⟩; exact ⟨rfl, s, rfl⟩

lemma hasSub_iff (n : Str) : ∀ l, hasSub n l = true ↔ ∃ p s, l = p ++ n ++ s := by
  intro l
  induction l with
  | nil =>
    simp only [hasSub, List.isEmpty_iff]
    constructor
    · rintro rfl; exact ⟨[], [], rfl⟩
    · rintro ⟨p, s, h⟩
      rcases List.append_eq_nil.mp h.symm with ⟨h1, h2⟩
      exact (List.append_eq_nil.mp h1).2
  | cons c rest ih =>
    simp only [hasSub, Bool.or_eq_true, startsWithS_iff, ih]
    constructor
    · rintro (⟨s, hs⟩ | ⟨p, s, h⟩)
      · exact ⟨[], s, by simp [hs]⟩
      · exact ⟨c :: p, s, by simp [h]⟩
    · rintro ⟨p, s, h⟩
      cases p with
      | nil => exact Or.inl ⟨s, by simpa using h⟩
      | cons q qs =>
        simp only [List.cons_append, List.cons.injEq] at h
        exact Or.inr ⟨qs, s, h.2⟩

lemma hasSub_dropWhile (a : Nat) (n' : Str) (ha : pyIsSpace a = false) :
    ∀ l, hasSub (a :: n') (l.dropWhile pyIsSpace) = hasSub (a :: n') l := by
  intro l
  induction l with
  | nil => rfl
  | cons c rest ih =>
    by_cases hc : pyIsSpace c = true
    · have hac : (a == c) = false := by
        rw [beq_eq_false_iff_ne]
        rintro rfl
        rw [hc] at ha
        exact Bool.true_eq_false.mp ha
      rw [List.dropWhile_cons, if_pos hc, ih]
      simp [hasSub, startsWithS, hac]
    · rw [List.dropWhile_cons, if_neg hc]

lemma hasSub_rev (n l : Str) : hasSub n l.reverse = hasSub n.reverse l := by
  apply bool_ext
  rw [hasSub_iff, hasSub_iff]
  constructor
  · rintro ⟨p, s, h⟩
    refine ⟨s.reverse, p.reverse, ?_⟩
    have hl : l = (p ++ n ++ s).reverse := by rw [← h, List.reverse_reverse]
    rw [hl]
    simp [List.reverse_append, List.append_assoc]
  · rintro ⟨p, s, h⟩
    refine ⟨s.reverse, p.reverse, ?_⟩
    rw [h]
    simp [List.reverse_append, List.append_assoc]

lemma hasSub_stripChars_strTrue (l : Str) :
    hasSub strTrue (stripChars l) = hasSub strTrue l := by
  have h1 : strTrue = [116, 114, 117, 101] := by decide
  have h2 : ([116, 114, 117, 101] : Str).reverse = [101, 117, 114, 116] := rfl
  rw [h1]
  unfold stripChars
  rw [hasSub_rev, h2, hasSub_dropWhile 101 _ (by decide), ← h2,
    ← hasSub_rev, List.reverse_reverse, hasSub_dropWhile 116 _ (by decide)]

lemma pyIsSpace_lowerChar (c : Nat) : pyIsSpace (lowerChar c) = pyIsSpace c := by
  unfold lowerChar
  split
  · next h =>
    unfold pyIsSpace
    rw [decide_eq_decide]
    omega
  · rfl

lemma map_lower_dropWhile (l : Str) :
    (l.dropWhile pyIsSpace).map lowerChar = (l.map lowerChar).dropWhile pyIsSpace := by
  induction l with
  | nil => rfl
  | cons c rest ih =>
    by_cases hc : pyIsSpace c = true
    · simp [List.dropWhile_cons, hc, pyIsSpace_lowerChar, ih]
    · simp [List.dropWhile_cons, hc, pyIsSpace_lowerChar]

lemma lower_strip_comm (l : Str) : lowerStr (stripChars l) = stripChars (lowerStr l) := by
  unfold lowerStr stripChars
  rw [List.map_reverse, map_lower_dropWhile, List.map_reverse, map_lower_dropWhile]

/-- C2: the classifier returns true exactly when the model call succeeds
    and the lower-cased reply contains the substring "true" anywhere; any
    other reply, and any exception raised by the model call, yields
    false. -/
theorem c2_is_urgent_true_iff (oracle : Str → Except Unit Str) (text : Str) :
    (is_urgent oracle text).1 = true ↔
      ∃ reply, oracle (prompt text) = Except.ok reply ∧
        hasSub strTrue (lowerStr reply) = true := by
  cases h : oracle (prompt text) with
  | ok content => simp [is_urgent, h, lower_strip_comm, hasSub_stripChars_strTrue]
  | error e => simp [is_urgent, h]

lemma processTicket_skip (env : Env) (pids : Finset Str) (cutoff : Int) (t : Ticket)
    (c : Int) (hc : t.created_at = some c)
    (h : s2c (toString t.id) ∈ pids ∨ c < cutoff ∨ t.responder_id.isSome = true) :
    processTicket env pids cutoff t = some [] := by
  unfold processTicket
  rw [hc]
  rcases h with h | h | h
  · simp [h]
  · by_cases hm : s2c (toString t.id) ∈ pids
    · simp [hm]
    · simp [hm, h]
  · by_cases hm : s2c (toString t.id) ∈ pids
    · simp [hm]
    · by_cases hlt : c < cutoff
      · simp [hm, hlt]
      · simp [hm, hlt, h]

lemma processTicket_mkEnv_body (body1 body2 : List Ticket) (now : Int)
    (oracle : Str → Except Unit Str) (sendOk : Bool) (domain : Str)
    (pids : Finset Str) (cutoff : Int) (t : Ticket) :
    processTicket (mkEnv body1 now oracle sendOk domain) pids cutoff t =
      processTicket (mkEnv body2 now oracle sendOk domain) pids cutoff t := rfl

lemma processAll_mkEnv_body (body1 body2 : List Ticket) (now : Int)
    (oracle : Str → Except Unit Str) (sendOk : Bool) (domain : Str)
    (pids : Finset Str) (cutoff : Int) :
    ∀ ts, processAll (mkEnv body1 now oracle sendOk domain) pids cutoff ts =
      processAll (mkEnv body2 now oracle sendOk domain) pids cutoff ts := by
  intro ts
  induction ts with
  | nil => rfl
  | cons u us ih =>
    simp only [processAll]
    rw [processTicket_mkEnv_body body1 body2, ih]

lemma processAll_erase (env : Env) (pids : Finset Str) (cutoff : Int)
    (t : Ticket) (ht : processTicket env pids cutoff t = some [])
    (pre post : List Ticket) :
    processAll env pids cutoff (pre ++ t :: post) =
      processAll env pids cutoff (pre ++ post) := by
  induction pre with
  | nil => simp [processAll, ht]
  | cons u us ih =>
    simp only [List.cons_append, processAll, List.append_eq]
    rw [ih]

lemma check_mkEnv (body : List Ticket) (now : Int) (oracle : Str → Except Unit Str)
    (sendOk : Bool) (domain : Str) (file : List Str) :
    check_recent_tickets (mkEnv body now oracle sendOk domain) file =
      if body.isEmpty then ⟨[], false⟩
      else
        ⟨(processAll (mkEnv body now oracle sendOk domain) (read_processed_ids file)
            (now - 60) body).1,
         (processAll (mkEnv body now oracle sendOk domain) (read_processed_ids file)
            (now - 60) body).2⟩ := by
  unfold check_recent_tickets fetch_recent_tickets mkEnv
  simp

lemma check_erase (now : Int) (oracle : Str → Except Unit Str) (sendOk : Bool)
    (domain : Str) (file : List Str) (pre post : List Ticket) (t : Ticket)
    (ht : processTicket (mkEnv (pre ++ t :: post) now oracle sendOk domain)
        (read_processed_ids file) (now - 60) t = some []) :
    check_recent_tickets (mkEnv (pre ++ t :: post) now oracle sendOk domain) file =
      check_recent_tickets (mkEnv (pre ++ post) now oracle sendOk domain) file := by
  rw [check_mkEnv, check_mkEnv]
  have hne : (pre ++ t :: post).isEmpty = false := by cases pre <;> rfl
  rw [hne]
  cases hpp : (pre ++ post).isEmpty with
  | true =>
    have hnil : pre ++ post = [] := List.isEmpty_iff.mp hpp
    rcases List.append_eq_nil.mp hnil with ⟨rfl, rfl⟩
    simp only [List.nil_append] at ht ⊢
    simp [processAll, ht]
  | false =>
    simp only [Bool.false_eq_true, if_false]
    rw [processAll_mkEnv_body (pre ++ post) (pre ++ t :: post),
      processAll_erase _ _ _ _ ht]

lemma marksOf_fetch (env : Env) : marksOf (fetch_recent_tickets env).2 = [] := by
  unfold fetch_recent_tickets
  cases env.fetchResp with
  | ok r => by_cases h : r.status = 200 <;> simp [h, marksOf]
  | error e => simp [marksOf]

lemma classifiedOf_fetch (env : Env) : classifiedOf (fetch_recent_tickets env).2 = [] := by
  unfold fetch_recent_tickets
  cases env.fetchResp with
  | ok r => by_cases h : r.status = 200 <;> simp [h, classifiedOf]
  | error e => simp [classifiedOf]

lemma notificationsOf_fetch (env : Env) :
    notificationsOf (fetch_recent_tickets env).2 = [] := by
  unfold fetch_recent_tickets
  cases env.fetchResp with
  | ok r => by_cases h : r.status = 200 <;> simp [h, notificationsOf]
  | error e => simp [notificationsOf]

lemma check_of_fetch_nil (env : Env) (file : List Str)
    (h : (fetch_recent_tickets env).1 = []) :
    check_recent_tickets env file = ⟨(fetch_recent_tickets env).2, false⟩ := by
  simp [check_recent_tickets, h]

/-- C7: when the fetch raises, returns a non-200 status, or returns an
    empty body, the tick classifies nothing, notifies nobody, and leaves
    the processed-tickets file unchanged. -/
theorem c7_failed_or_empty_fetch_noop (env : Env) (file : List Str)
    (h : env.fetchResp = Except.error () ∨
      (∃ r, env.fetchResp = Except.ok r ∧ ¬ r.status = 200) ∨
      (∃ r, env.fetchResp = Except.ok r ∧ r.body = [])) :
    classifiedOf (check_recent_tickets env file).events = [] ∧
    notificationsOf (check_recent_tickets env file).events = [] ∧
    fileAfter env file = file := by
  have hnil : (fetch_recent_tickets env).1 = [] := by
    rcases h with h | ⟨r, hr, hs⟩ | ⟨r, hr, hb⟩
    · simp [fetch_recent_tickets, h]
    · simp [fetch_recent_tickets, hr, hs]
    · simp only [fetch_recent_tickets, hr]
      by_cases hs2 : r.status = 200 <;> simp [hs2, hb]
  refine ⟨?_, ?_, ?_⟩
  · rw [check_of_fetch_nil env file hnil]
    exact classifiedOf_fetch env
  · rw [check_of_fetch_nil env file hnil]
    exact notificationsOf_fetch env
  · unfold fileAfter
    rw [check_of_fetch_nil env file hnil]
    simp [marksOf_fetch]

theorem c7_failed_or_empty_fetch_noop_witness :
    ((⟨Except.error (), 0, fun _ => Except.ok [], true, []⟩ : Env).fetchResp =
        Except.error () ∨
      (∃ r, (⟨Except.error (), 0, fun _ => Except.ok [], true, []⟩ : Env).fetchResp =
        Except.ok r ∧ ¬ r.status = 200) ∨
      (∃ r, (⟨Except.error (), 0, fun _ => Except.ok [], true, []⟩ : Env).fetchResp =
        Except.ok r ∧ r.body = [])) ∧
    classifiedOf (check_recent_tickets
      ⟨Except.error (), 0, fun _ => Except.ok [], true, []⟩ [s2c ("7")]).events = [] ∧
    notificationsOf (check_recent_tickets
      ⟨Except.error (), 0, fun _ => Except.ok [], true, []⟩ [s2c ("7")]).events = [] ∧
    fileAfter ⟨Except.error (), 0, fun _ => Except.ok [], true, []⟩ [s2c ("7")] =
      [s2c ("7")] :=
  ⟨Or.inl rfl,
    c7_failed_or_empty_fetch_noop ⟨Except.error (), 0, fun _ => Except.ok [], true, []⟩
      [s2c ("7")] (Or.inl rfl)⟩

lemma check_of_ne (env : Env) (file : List Str)
    (hne : (fetch_recent_tickets env).1.isEmpty = false) :
    check_recent_tickets env file =
      ⟨(fetch_recent_tickets env).2 ++
         (processAll env (read_processed_ids file) (env.now - 60)
           (fetch_recent_tickets env).1).1,
       (processAll env (read_processed_ids file) (env.now - 60)
         (fetch_recent_tickets env).1).2⟩ := by
  simp [check_recent_tickets, hne]

lemma processTicket_none_iff (env : Env) (pids : Finset Str) (cutoff : Int)
    (t : Ticket) : processTicket env pids cutoff t = none ↔ t.created_at = none := by
  cases h : t.created_at with
  | none => simp [processTicket, h]
  | some c =>
    simp only [processTicket, h]
    constructor
    · intro hh
      split at hh
      · simp at hh
      · split at hh
        · simp at hh
        · split at hh
          · simp at hh
          · simp at hh
    · intro hh
      simp at hh

lemma processAll_abort_of_none (env : Env) (pids : Finset Str) (cutoff : Int) :
    ∀ l (t : Ticket), t ∈ l → t.created_at = none →
      (processAll env pids cutoff l).2 = true := by
  intro l
  induction l with
  | nil => intro t h _; exact absurd h (List.not_mem_nil t)
  | cons u us ih =>
    intro t hmem hnone
    rcases List.mem_cons.mp hmem with rfl | hmem2
    · have hu : processTicket env pids cutoff t = none :=
        (processTicket_none_iff env pids cutoff t).mpr hnone
      simp [processAll, hu]
    · cases hu : processTicket env pids cutoff u with
      | none => simp [processAll, hu]
      | some evs =>
        simp [processAll, hu]
        exact ih t hmem2 hnone

/-- C3 is false of the code: with a batch of an unparsable-timestamp
    ticket followed by a fresh, unassigned, unseen ticket, the tick
    aborts with an uncaught exception, logs nothing, and the second
    (eligible) ticket is neither marked nor classified nor notified —
    the parse failure is not handled locally. -/
theorem c3_counterexample_parse_failure_aborts :
    (check_recent_tickets
      ⟨Except.ok ⟨200, [⟨1, none, none, [], []⟩,
          ⟨2, some 0, none, s2c ("Help"), s2c ("broken")⟩]⟩,
        0, fun _ => Except.ok (s2c ("true")), true, []⟩ []).aborted = true ∧
    (check_recent_tickets
      ⟨Except.ok ⟨200, [⟨1, none, none, [], []⟩,
          ⟨2, some 0, none, s2c ("Help"), s2c ("broken")⟩]⟩,
        0, fun _ => Except.ok (s2c ("true")), true, []⟩ []).events = [] := by
  decide

/-- C3 amended: a failure to parse a ticket's creation timestamp is not
    caught — it raises out of the loop, so the tick aborts and the
    remaining tickets of the batch are not processed. -/
theorem c3_unparsable_timestamp_aborts_tick (env : Env) (file : List Str)
    (t : Ticket) (hmem : t ∈ fetchedTickets env) (hnone : t.created_at = none) :
    (check_recent_tickets env file).aborted = true := by
  have hne : (fetch_recent_tickets env).1.isEmpty = false := by
    cases hf : (fetch_recent_tickets env).1 with
    | nil =>
      unfold fetchedTickets at hmem
      rw [hf] at hmem
      exact absurd hmem (List.not_mem_nil t)
    | cons a l => rfl
  rw [check_of_ne env file hne]
  exact processAll_abort_of_none env _ _ _ t hmem hnone

theorem c3_unparsable_timestamp_aborts_tick_witness :
    (⟨1, none, none, [], []⟩ : Ticket) ∈
      fetchedTickets ⟨Except.ok ⟨200, [⟨1, none, none, [], []⟩]⟩, 0,
        fun _ => Except.ok [], true, []⟩ ∧
    (⟨1, none, none, [], []⟩ : Ticket).created_at = none ∧
    (check_recent_tickets ⟨Except.ok ⟨200, [⟨1, none, none, [], []⟩]⟩, 0,
        fun _ => Except.ok [], true, []⟩ []).aborted = true :=
  ⟨by decide, by decide,
    c3_unparsable_timestamp_aborts_tick
      ⟨Except.ok ⟨200, [⟨1, none, none, [], []⟩]⟩, 0, fun _ => Except.ok [], true, []⟩
      [] ⟨1, none, none, [], []⟩ (by decide) (by decide)⟩

/-- C4: a fetched ticket with a non-null responder_id is skipped — the
    tick is observationally identical to one where that ticket is absent
    from the batch, so no classification call, no notification, and no
    append of its identifier to the processed file happen for it, and it
    stays out of the processed set. -/
theorem c4_assigned_responder_skipped (now : Int) (oracle : Str → Except Unit Str)
    (sendOk : Bool) (domain : Str) (file : List Str) (pre post : List Ticket)
    (t : Ticket) (c : Int) (hc : t.created_at = some c)
    (hr : t.responder_id.isSome = true) :
    check_recent_tickets (mkEnv (pre ++ t :: post) now oracle sendOk domain) file =
      check_recent_tickets (mkEnv (pre ++ post) now oracle sendOk domain) file :=
  check_erase now oracle sendOk domain file pre post t
    (processTicket_skip _ _ _ t c hc (Or.inr (Or.inr hr)))

theorem c4_assigned_responder_skipped_witness :
    (⟨1, some 0, some 7, [], []⟩ : Ticket).created_at = some 0 ∧
    (⟨1, some 0, some 7, [], []⟩ : Ticket).responder_id.isSome = true ∧
    check_recent_tickets
      (mkEnv [⟨1, some 0, some 7, [], []⟩] 0 (fun _ => Except.ok []) true []) [] =
      check_recent_tickets (mkEnv [] 0 (fun _ => Except.ok []) true []) [] :=
  ⟨by decide, by decide,
    c4_assigned_responder_skipped 0 (fun _ => Except.ok []) true [] [] [] []
      ⟨1, some 0, some 7, [], []⟩ 0 (by decide) (by decide)⟩

/-- C5: a ticket whose identifier is already in the processed set loaded
    at the start of the tick is skipped — the tick is observationally
    identical to one where that ticket is absent from the batch, so no
    classification call and no notification happen for it. -/
theorem c5_already_processed_skipped (now : Int) (oracle : Str → Except Unit Str)
    (sendOk : Bool) (domain : Str) (file : List Str) (pre post : List Ticket)
    (t : Ticket) (c : Int) (hc : t.created_at = some c)
    (hmem : s2c (toString t.id) ∈ read_processed_ids file) :
    check_recent_tickets (mkEnv (pre ++ t :: post) now oracle sendOk domain) file =
      check_recent_tickets (mkEnv (pre ++ post) now oracle sendOk domain) file :=
  check_erase now oracle sendOk domain file pre post t
    (processTicket_skip _ _ _ t c hc (Or.inl hmem))

theorem c5_already_processed_skipped_witness :
    (⟨1, some 0, none, [], []⟩ : Ticket).created_at = some 0 ∧
    s2c (toString (⟨1, some 0, none, [], []⟩ : Ticket).id) ∈
      read_processed_ids [s2c ("1")] ∧
    check_recent_tickets
      (mkEnv [⟨1, some 0, none, [], []⟩] 0 (fun _ => Except.ok []) true [])
        [s2c ("1")] =
      check_recent_tickets (mkEnv [] 0 (fun _ => Except.ok []) true [])
        [s2c ("1")] :=
  ⟨by decide, by decide,
    c5_already_processed_skipped 0 (fun _ => Except.ok []) true [] [s2c ("1")]
      [] [] ⟨1, some 0, none, [], []⟩ 0 (by decide) (by decide)⟩

/-- C6: a ticket created strictly before the cutoff now − 60 s is
    skipped whatever the processed set holds — the tick is
    observationally identical to one where that ticket is absent from
    the batch: no classification, no notification, no append. -/
theorem c6_stale_ticket_skipped (now : Int) (oracle : Str → Except Unit Str)
    (sendOk : Bool) (domain : Str) (file : List Str) (pre post : List Ticket)
    (t : Ticket) (c : Int) (hc : t.created_at = some c)
    (hlt : c < now - 60) :
    check_recent_tickets (mkEnv (pre ++ t :: post) now oracle sendOk domain) file =
      check_recent_tickets (mkEnv (pre ++ post) now oracle sendOk domain) file :=
  check_erase now oracle sendOk domain file pre post t
    (processTicket_skip _ _ _ t c hc (Or.inr (Or.inl hlt)))

theorem c6_stale_ticket_skipped_witness :
    (⟨1, some (-100), none, [], []⟩ : Ticket).created_at = some (-100) ∧
    ((-100 : Int) < 0 - 60) ∧
    check_recent_tickets
      (mkEnv [⟨1, some (-100), none, [], []⟩] 0 (fun _ => Except.ok []) true [])
        [] =
      check_recent_tickets (mkEnv [] 0 (fun _ => Except.ok []) true []) [] :=
  ⟨by decide, by decide,
    c6_stale_ticket_skipped 0 (fun _ => Except.ok []) true [] [] [] []
      ⟨1, some (-100), none, [], []⟩ (-100) (by decide) (by decide)⟩

lemma processAll_of_all_parse (env : Env) (pids : Finset Str) (cutoff : Int) :
    ∀ l, (∀ t ∈ l, t.created_at.isSome = true) →
      processAll env pids cutoff l =
        ((l.map fun t => (processTicket env pids cutoff t).getD []).flatten, false) := by
  intro l
  induction l with
  | nil => intro _; rfl
  | cons u us ih =>
    intro hall
    have hu : u.created_at.isSome = true := hall u (List.mem_cons_self u us)
    cases hcu : processTicket env pids cutoff u with
    | none =>
      rw [processTicket_none_iff] at hcu
      rw [hcu] at hu
      simp at hu
    | some evs =>
      simp [processAll, hcu, ih (fun t ht => hall t (List.mem_cons_of_mem u ht))]

/-- C8: under parsable timestamps, an exception raised while classifying
    a ticket (caught inside is_urgent and logged) or while notifying
    (caught inside send_alert_email and logged) never aborts the tick,
    and the batch trace is the concatenation of an independent
    per-ticket trace for every ticket of the batch, so every remaining
    ticket is still processed. -/
theorem c8_classify_notify_failures_are_local (env : Env) (file : List Str)
    (hall : ∀ t ∈ fetchedTickets env, t.created_at.isSome = true) :
    (check_recent_tickets env file).aborted = false ∧
    (check_recent_tickets env file).events =
      (fetch_recent_tickets env).2 ++
        ((fetchedTickets env).map fun t =>
          (processTicket env (read_processed_ids file) (env.now - 60) t).getD []).flatten ∧
    (∀ text, env.oracle (prompt text) = Except.error () →
      is_urgent env.oracle text = (false, [Event.log LogEvent.gptError])) ∧
    ∀ s b u, send_alert_email false s b u =
      [Event.notify s b u, Event.log LogEvent.emailFailure] := by
  have hco : check_recent_tickets env file =
      ⟨(fetch_recent_tickets env).2 ++
        ((fetchedTickets env).map fun t =>
          (processTicket env (read_processed_ids file) (env.now - 60) t).getD []).flatten,
        false⟩ := by
    by_cases hf : (fetch_recent_tickets env).1 = []
    · rw [check_of_fetch_nil env file hf]
      unfold fetchedTickets
      rw [hf]
      simp
    · have hne : (fetch_recent_tickets env).1.isEmpty = false := by
        cases hff : (fetch_recent_tickets env).1 with
        | nil => exact absurd hff hf
        | cons a l => rfl
      rw [check_of_ne env file hne,
        processAll_of_all_parse env (read_processed_ids file) (env.now - 60)
          (fetch_recent_tickets env).1 hall]
      rfl
  refine ⟨by rw [hco], by rw [hco], ?_, ?_⟩
  · intro text h
    simp [is_urgent, h]
  · intro s b u
    rfl

theorem c8_classify_notify_failures_are_local_witness :
    (∀ t ∈ fetchedTickets failEnv, t.created_at.isSome = true) ∧
    ((check_recent_tickets failEnv []).aborted = false ∧
      (check_recent_tickets failEnv []).events =
        (fetch_recent_tickets failEnv).2 ++
          ((fetchedTickets failEnv).map fun t =>
            (processTicket failEnv (read_processed_ids []) (failEnv.now - 60) t).getD
              []).flatten ∧
      (∀ text, failEnv.oracle (prompt text) = Except.error () →
        is_urgent failEnv.oracle text = (false, [Event.log LogEvent.gptError])) ∧
      ∀ s b u, send_alert_email false s b u =
        [Event.notify s b u, Event.log LogEvent.emailFailure]) :=
  ⟨by decide, c8_classify_notify_failures_are_local failEnv [] (by decide)⟩

lemma marksOf_nil : marksOf [] = [] := rfl

lemma marksOf_cons_mark (i : Str) (l : List Event) :
    marksOf (Event.mark i :: l) = i :: marksOf l := rfl

lemma marksOf_cons_classify (x : Str) (l : List Event) :
    marksOf (Event.classify x :: l) = marksOf l := rfl

lemma marksOf_cons_notify (s b u : Str) (l : List Event) :
    marksOf (Event.notify s b u :: l) = marksOf l := rfl

lemma marksOf_cons_log (e : LogEvent) (l : List Event) :
    marksOf (Event.log e :: l) = marksOf l := rfl

lemma marksOf_append (a b : List Event) :
    marksOf (a ++ b) = marksOf a ++ marksOf b := by
  simp [marksOf]

lemma is_urgent_snd (oracle : Str → Except Unit Str) (text : Str) :
    (is_urgent oracle text).2 = [] ∨
      (is_urgent oracle text).2 = [Event.log LogEvent.gptError] := by
  unfold is_urgent
  cases oracle (prompt text) <;> simp

lemma marksOf_send (sendOk : Bool) (s b u : Str) :
    marksOf (send_alert_email sendOk s b u) = [] := by
  cases sendOk <;>
    simp [send_alert_email, marksOf_cons_notify, marksOf_cons_log, marksOf_nil]

lemma marksOf_evalTicket (env : Env) (tid s d url ft : Str) :
    marksOf (evalTicket env tid s d url ft) = [] := by
  rcases is_urgent_snd env.oracle ft with h | h <;>
    cases hb : (is_urgent env.oracle ft).1 <;>
      simp [evalTicket, marksOf_cons_classify, marksOf_append, marksOf_cons_log,
        marksOf_nil, h, hb, marksOf_send]

lemma processAll_append_no_abort (env : Env) (pids : Finset Str) (cutoff : Int) :
    ∀ l1 l2, (∀ t ∈ l1, t.created_at.isSome = true) →
      processAll env pids cutoff (l1 ++ l2) =
        ((processAll env pids cutoff l1).1 ++ (processAll env pids cutoff l2).1,
         (processAll env pids cutoff l2).2) := by
  intro l1
  induction l1 with
  | nil => intro l2 _; simp [processAll]
  | cons u us ih =>
    intro l2 hall
    have hu : u.created_at.isSome = true := hall u (List.mem_cons_self u us)
    cases hcu : processTicket env pids cutoff u with
    | none =>
      rw [processTicket_none_iff] at hcu
      rw [hcu] at hu
      simp at hu
    | some evs =>
      simp [processAll, hcu, ih l2 (fun t ht => hall t (List.mem_cons_of_mem u ht)),
        List.append_assoc]

lemma marksOf_of_processTicket (env : Env) (pids : Finset Str) (cutoff : Int)
    (t : Ticket) (evs : List Event)
    (h : processTicket env pids cutoff t = some evs) :
    marksOf evs = [] ∨ marksOf evs = [s2c (toString t.id)] := by
  cases hc : t.created_at with
  | none =>
    rw [(processTicket_none_iff env pids cutoff t).mpr hc] at h
    simp at h
  | some c =>
    simp only [processTicket, hc] at h
    split at h
    · exact Or.inl (by injection h with h2; rw [← h2]; rfl)
    · split at h
      · exact Or.inl (by injection h with h2; rw [← h2]; rfl)
      · split at h
        · exact Or.inl (by injection h with h2; rw [← h2]; rfl)
        · refine Or.inr ?_
          injection h with h2
          rw [← h2, marksOf_cons_mark, marksOf_evalTicket]

lemma mem_marks_processAll (env : Env) (pids : Finset Str) (cutoff : Int) :
    ∀ l (i : Str), i ∈ marksOf (processAll env pids cutoff l).1 →
      i ∈ l.map fun t => s2c (toString t.id) := by
  intro l
  induction l with
  | nil => intro i h; simp [processAll, marksOf] at h
  | cons u us ih =>
    intro i h
    cases hu : processTicket env pids cutoff u with
    | none => simp [processAll, hu, marksOf] at h
    | some evs =>
      simp only [processAll, hu, marksOf_append, List.mem_append] at h
      rcases h with h1 | h2
      · rcases marksOf_of_processTicket env pids cutoff u evs hu with hz | hz
        · rw [hz] at h1
          simp at h1
        · rw [hz] at h1
          simp at h1
          rw [List.map_cons, h1]
          exact List.mem_cons_self _ _
      · rw [List.map_cons]
        exact List.mem_cons_of_mem _ (ih i h2)

lemma processTicket_eligible (env : Env) (pids : Finset Str) (cutoff : Int)
    (t : Ticket) (c : Int) (hc : t.created_at = some c)
    (hp : s2c (toString t.id) ∉ pids) (hcut : ¬ c < cutoff)
    (hr : t.responder_id = none) :
    processTicket env pids cutoff t =
      some (Event.mark (s2c (toString t.id)) ::
        evalTicket env (s2c (toString t.id)) t.subject t.description
          (s2c ("https://") ++ env.domain ++ s2c ("/a/tickets/") ++
            s2c (toString t.id))
          (fullTextOf t)) := by
  simp [processTicket, hc, hp, hcut, hr]

/-- C1: an eligible ticket (unseen, fresh, unassigned) of a batch with
    pairwise-distinct identifiers and parsable timestamps has its
    identifier appended to the processed file exactly once during the
    tick, and the append event immediately precedes the classification
    event in the trace — so the identifier is recorded whatever the
    classification or notification calls do, including raising. -/
theorem c1_eligible_marked_once_before_classification (env : Env) (file : List Str)
    (t : Ticket) (c : Int)
    (hmem : t ∈ fetchedTickets env)
    (hall : ∀ u ∈ fetchedTickets env, u.created_at.isSome = true)
    (hnodup : ((fetchedTickets env).map fun u => s2c (toString u.id)).Nodup)
    (hc : t.created_at = some c)
    (hp : s2c (toString t.id) ∉ read_processed_ids file)
    (hcut : ¬ c < env.now - 60)
    (hr : t.responder_id = none) :
    List.count (s2c (toString t.id))
      (marksOf (check_recent_tickets env file).events) = 1 ∧
    ∃ l1 l2, (check_recent_tickets env file).events =
      l1 ++ Event.mark (s2c (toString t.id)) ::
        Event.classify (fullTextOf t) :: l2 := by
  obtain ⟨pre, post, hsplit⟩ := List.append_of_mem hmem
  have hsplit2 : (fetch_recent_tickets env).1 = pre ++ t :: post := hsplit
  have hne : (fetch_recent_tickets env).1.isEmpty = false := by
    rw [hsplit2]
    cases pre <;> rfl
  have hch := check_of_ne env file hne
  have hallpre : ∀ u ∈ pre, u.created_at.isSome = true := by
    intro u hu
    exact hall u (by rw [hsplit]; exact List.mem_append_left _ hu)
  have happ := processAll_append_no_abort env (read_processed_ids file)
    (env.now - 60) pre (t :: post) hallpre
  have helig := processTicket_eligible env (read_processed_ids file)
    (env.now - 60) t c hc hp hcut hr
  have hcons : (processAll env (read_processed_ids file) (env.now - 60)
      (t :: post)).1 =
      (Event.mark (s2c (toString t.id)) ::
        evalTicket env (s2c (toString t.id)) t.subject t.description
          (s2c ("https://") ++ env.domain ++ s2c ("/a/tickets/") ++
            s2c (toString t.id))
          (fullTextOf t)) ++
        (processAll env (read_processed_ids file) (env.now - 60) post).1 := by
    simp [processAll, helig]
  have hev : (check_recent_tickets env file).events =
      (fetch_recent_tickets env).2 ++
        ((processAll env (read_processed_ids file) (env.now - 60) pre).1 ++
          ((Event.mark (s2c (toString t.id)) ::
            evalTicket env (s2c (toString t.id)) t.subject t.description
              (s2c ("https://") ++ env.domain ++ s2c ("/a/tickets/") ++
                s2c (toString t.id))
              (fullTextOf t)) ++
            (processAll env (read_processed_ids file) (env.now - 60) post).1)) := by
    rw [hch]
    simp only []
    rw [hsplit2, happ]
    simp only []
    rw [hcons]
  rw [hsplit] at hnodup
  rw [List.map_append, List.map_cons] at hnodup
  obtain ⟨hnd1, hnd2, hdisj⟩ := List.nodup_append.mp hnodup
  have htpre : s2c (toString t.id) ∉ pre.map fun u => s2c (toString u.id) :=
    fun hmem1 => hdisj hmem1 (List.mem_cons_self _ _)
  have htpost : s2c (toString t.id) ∉ post.map fun u => s2c (toString u.id) :=
    (List.nodup_cons.mp hnd2).1
  have hc1 : List.count (s2c (toString t.id))
      (marksOf (processAll env (read_processed_ids file) (env.now - 60) pre).1) = 0 :=
    List.count_eq_zero.mpr
      (fun hmm => htpre (mem_marks_processAll env _ _ pre _ hmm))
  have hc2 : List.count (s2c (toString t.id))
      (marksOf (processAll env (read_processed_ids file) (env.now - 60) post).1) = 0 :=
    List.count_eq_zero.mpr
      (fun hmm => htpost (mem_marks_processAll env _ _ post _ hmm))
  constructor
  · rw [hev, marksOf_append, marksOf_append, marksOf_append, marksOf_fetch,
      marksOf_cons_mark, marksOf_evalTicket]
    simp [List.count_append, hc1, hc2]
  · obtain ⟨T, hT⟩ : ∃ T,
        evalTicket env (s2c (toString t.id)) t.subject t.description
          (s2c ("https://") ++ env.domain ++ s2c ("/a/tickets/") ++
            s2c (toString t.id))
          (fullTextOf t) = Event.classify (fullTextOf t) :: T := ⟨_, rfl⟩
    refine ⟨(fetch_recent_tickets env).2 ++
      (processAll env (read_processed_ids file) (env.now - 60) pre).1,
      T ++ (processAll env (read_processed_ids file) (env.now - 60) post).1, ?_⟩
    rw [hev, hT]
    simp [List.append_assoc]

theorem c1_eligible_marked_once_before_classification_witness :
    eligibleTicket ∈ fetchedTickets eligibleEnv ∧
    (∀ u ∈ fetchedTickets eligibleEnv, u.created_at.isSome = true) ∧
    ((fetchedTickets eligibleEnv).map fun u => s2c (toString u.id)).Nodup ∧
    eligibleTicket.created_at = some 0 ∧
    s2c (toString eligibleTicket.id) ∉ read_processed_ids [] ∧
    ¬ (0 : Int) < eligibleEnv.now - 60 ∧
    eligibleTicket.responder_id = none ∧
    (List.count (s2c (toString eligibleTicket.id))
      (marksOf (check_recent_tickets eligibleEnv []).events) = 1 ∧
    ∃ l1 l2, (check_recent_tickets eligibleEnv []).events =
      l1 ++ Event.mark (s2c (toString eligibleTicket.id)) ::
        Event.classify (fullTextOf eligibleTicket) :: l2) :=
  ⟨by decide, by decide, by decide, by decide, by decide, by decide, by decide,
    c1_eligible_marked_once_before_classification eligibleEnv [] eligibleTicket 0
      (by decide) (by decide) (by decide) (by decide) (by decide) (by decide)
      (by decide)⟩

/-- C9: the end-to-end scenario: given one ticket with id 1, created
    now, no responder, subject "Site down", description "prod is down",
    and a classifier reply "true", one tick appends "1" to the processed
    file and invokes the notifier exactly once, with subject argument
    "Site down". -/
theorem c9_end_to_end_urgent_scenario :
    fileAfter envC9 [] = [s2c ("1")] ∧
    (notificationsOf (check_recent_tickets envC9 []).events).map
      (fun n => n.1) = [s2c ("Site down")] := by
  decide

/-- C10: after marking an identifier (whitespace-free, as every str(id)
    the orchestrator writes is), reading the store back yields the old
    set plus that identifier, and marking it any number of further times
    leaves the read-back set unchanged — appends dedupe on read. -/
theorem c10_mark_then_read_roundtrip (i : Str) (file : List Str)
    (h : stripChars i = i) :
    read_processed_ids (mark_processed i file) =
      insert i (read_processed_ids file) ∧
    ∀ n, read_processed_ids (markTimes i n (mark_processed i file)) =
      read_processed_ids (mark_processed i file) := by
  have h1 : ∀ g, read_processed_ids (mark_processed i g) =
      insert i (read_processed_ids g) := by
    intro g
    unfold read_processed_ids mark_processed
    rw [List.map_append, List.toFinset_append]
    simp [h]
    rw [Finset.union_comm, ← Finset.insert_eq]
  have h2 : ∀ n g, i ∈ read_processed_ids g →
      read_processed_ids (markTimes i n g) = read_processed_ids g := by
    intro n
    induction n with
    | zero => intro g _; rfl
    | succ m ih =>
      intro g hg
      show read_processed_ids (markTimes i m (mark_processed i g)) = _
      rw [ih (mark_processed i g) (by rw [h1]; exact Finset.mem_insert_self i _),
        h1]
      exact Finset.insert_eq_self.mpr hg
  refine ⟨h1 file, fun n => h2 n (mark_processed i file) ?_⟩
  rw [h1]
  exact Finset.mem_insert_self i _

theorem c10_mark_then_read_roundtrip_witness :
    stripChars (s2c ("1")) = s2c ("1") ∧
    (read_processed_ids (mark_processed (s2c ("1")) [s2c ("2")]) =
      insert (s2c ("1")) (read_processed_ids [s2c ("2")]) ∧
    ∀ n, read_processed_ids (markTimes (s2c ("1")) n
        (mark_processed (s2c ("1")) [s2c ("2")])) =
      read_processed_ids (mark_processed (s2c ("1")) [s2c ("2")])) :=
  ⟨by decide, c10_mark_then_read_roundtrip (s2c ("1")) [s2c ("2")] (by decide)⟩
